import Mathlib

/-!
Verification of the gymlog offline-first client core: the programme-cycle
tracker and progressive-overload resolver (`src/apps/mobile/src/lib/utils/cycle.ts`,
workout-session pre-fill logic), and the sync engine
(`src/apps/mobile/src/lib/stores/sync.ts`), shallowly embedded in Lean.

Modelling conventions:
* JS numbers used as weights are modelled as `ℚ`; ids as `ℤ` (local ids are
  negative); timestamps (`Date.now()`, ISO date strings compared via
  `new Date(...).getTime()`) as `ℕ`, order-isomorphic to the source values.
* `Array.prototype.sort` and the Dexie collection orderings (`orderBy`,
  `sortBy`, with an optional `reverse`) are stable sorts; they are modelled by
  a stable insertion sort `sortBy` parameterised by a boolean "may go before"
  relation.
* Dexie tables are lists of records; `bulkPut` is an upsert by primary key,
  `orderBy createdAt` sorts by the index key with ties broken by the
  auto-increment primary key, as Dexie iterates index entries.
* JSON round-trips (`sets_data` columns, request bodies) are modelled as
  identity: the parsed value is stored directly.
-/

namespace GymLog

/-! ## A stable sort, modelling JS `Array.prototype.sort` / Dexie orderings -/

/-- Insert `x` into `l`, before the first element `y` with `le x y`. -/
def insertSorted (le : α → α → Bool) (x : α) : List α → List α
  | [] => [x]
  | y :: ys => if le x y then x :: y :: ys else y :: insertSorted le x ys

/-- Stable insertion sort: with `le a b` meaning "a may stay before b"
(true on ties), equal keys keep their original relative order. -/
def sortBy (le : α → α → Bool) (l : List α) : List α :=
  l.foldr (insertSorted le) []

theorem insertSorted_perm (le : α → α → Bool) (x : α) (l : List α) :
    (insertSorted le x l).Perm (x :: l) := by
  induction l with
  | nil => simp [insertSorted]
  | cons y ys ih =>
      simp only [insertSorted]
      split
      · exact List.Perm.refl _
      · exact (List.Perm.cons y ih).trans (List.Perm.swap x y ys)

theorem sortBy_perm (le : α → α → Bool) (l : List α) :
    (sortBy le l).Perm l := by
  induction l with
  | nil => simp [sortBy]
  | cons x xs ih =>
      simp only [sortBy, List.foldr] at *
      exact (insertSorted_perm le x _).trans (ih.cons x)

theorem sortBy_eq_self (le : α → α → Bool) (l : List α)
    (h : l.Pairwise (fun a b => le a b = true)) : sortBy le l = l := by
  induction l with
  | nil => rfl
  | cons x xs ih =>
      rcases List.pairwise_cons.mp h with ⟨hx, hxs⟩
      simp only [sortBy, List.foldr] at *
      rw [ih hxs]
      cases xs with
      | nil => rfl
      | cons y ys => simp [insertSorted, hx y (List.mem_cons_self y ys)]

/-! ## Domain records (mirroring `src/apps/mobile/src/lib/db/index.ts`) -/

/-- One target set inside a template exercise: an element of the parsed
`sets_data` JSON array. -/
structure TargetSet where
  reps : Nat
  weight : ℚ
deriving DecidableEq

structure Programme where
  id : ℤ
  user_id : ℤ
  name : String
  is_active : Nat
  created_at : Nat
deriving DecidableEq

structure Template where
  id : ℤ
  user_id : ℤ
  programme_id : Option ℤ
  name : String
  rest_time : Nat
  created_at : Nat
deriving DecidableEq

structure TemplateExercise where
  id : ℤ
  template_id : ℤ
  exercise_id : ℤ
  sort_order : Nat
  sets_data : List TargetSet
  increment : ℚ
deriving DecidableEq

structure Workout where
  id : ℤ
  user_id : ℤ
  template_id : Option ℤ
  started_at : Nat
  completed_at : Option Nat
deriving DecidableEq

structure WorkoutSet where
  id : ℤ
  workout_id : ℤ
  exercise_id : ℤ
  set_number : Nat
  weight : Option ℚ
  reps : Option Nat
  completed_at : Nat
deriving DecidableEq

/-- The Dexie database tables read by the cycle tracker, the overload
resolver and the workout-session loader. -/
structure GymDB where
  programmes : List Programme
  templates : List Template
  templateExercises : List TemplateExercise
  workouts : List Workout
  sets : List WorkoutSet
deriving DecidableEq

/-! ## Cycle tracker (`calculateCycleProgress`, cycle.ts lines 19-81) -/

structure CycleProgress where
  completedIds : Finset ℤ
  totalTemplates : Nat
  cycleComplete : Bool
  currentCycle : Nat
deriving DecidableEq

/-- The backward walk of `calculateCycleProgress` (cycle.ts lines 53-73):
stop at the first template id already in the current-lap set; when the set
reaches the full template count, bump the lap counter and reset it. -/
def cycleWalk (totalTemplates : Nat) :
    List ℤ → Finset ℤ → Nat → Finset ℤ × Nat
  | [], acc, count => (acc, count)
  | t :: rest, acc, count =>
      if t ∈ acc then (acc, count)
      else
        let acc2 := insert t acc
        if acc2.card = totalTemplates then cycleWalk totalTemplates rest ∅ (count + 1)
        else cycleWalk totalTemplates rest acc2 count

/-- `calculateCycleProgress(userId, programmeId)` from cycle.ts. -/
def calculateCycleProgress (db : GymDB) (userId programmeId : ℤ) : CycleProgress :=
  let templates := db.templates.filter (fun t => t.programme_id == some programmeId)
  let templateIds : Finset ℤ := (templates.map (·.id)).toFinset
  let totalTemplates := templateIds.card
  if totalTemplates = 0 then
    { completedIds := ∅, totalTemplates := 0, cycleComplete := false, currentCycle := 0 }
  else
    let workouts := db.workouts.filter (fun w =>
      w.user_id == userId && w.completed_at.isSome &&
        match w.template_id with
        | some t => decide (t ∈ templateIds)
        | none => false)
    let sorted := sortBy (fun a b => b.completed_at.getD 0 ≤ a.completed_at.getD 0) workouts
    let walked := cycleWalk totalTemplates (sorted.map (fun w => w.template_id.getD 0)) ∅ 0
    { completedIds := walked.1
      totalTemplates := totalTemplates
      cycleComplete := walked.1.card == totalTemplates
      currentCycle := walked.2 }

/-! ## Last-workout lookup (`getLastSetsForExercise`, db/index.ts lines 198-220) -/

/-- Scan the workouts (most recent first) for the first one that holds sets of
this exercise; those sets, ordered by set number, are returned. -/
def findLastSets (db : GymDB) (exerciseId : ℤ) : List Workout → List WorkoutSet
  | [] => []
  | w :: rest =>
      let sets := sortBy (fun a b => a.set_number ≤ b.set_number)
        (db.sets.filter (fun s => s.workout_id == w.id && s.exercise_id == exerciseId))
      if sets.isEmpty then findLastSets db exerciseId rest else sets

/-- `getLastSetsForExercise(userId, exerciseId)` from db/index.ts: the sets of
the most recent completed workout that contains the exercise. -/
def getLastSetsForExercise (db : GymDB) (userId exerciseId : ℤ) : List WorkoutSet :=
  let recentWorkouts := sortBy (fun a b => b.completed_at.getD 0 ≤ a.completed_at.getD 0)
    (db.workouts.filter (fun w => w.user_id == userId && w.completed_at.isSome))
  findLastSets db exerciseId recentWorkouts

/-! ## Overload resolver (`calculateDisplayWeight`, cycle.ts lines 113-153) -/

inductive WeightSource where
  | template
  | history
deriving DecidableEq

structure DisplayWeightResult where
  weight : ℚ
  source : WeightSource
  incrementApplied : Bool
deriving DecidableEq

/-- `calculateDisplayWeight` from cycle.ts. `te.increment || 2.5` is a JS
falsy check, so a zero increment also falls back to 2.5. -/
def calculateDisplayWeight (db : GymDB) (userId programmeId templateId exerciseId : ℤ)
    (te : TemplateExercise) : DisplayWeightResult :=
  let templateSets := te.sets_data
  let increment := if te.increment = 0 then 2.5 else te.increment
  let templateDefaultWeight := match templateSets.head? with
    | some ts => ts.weight
    | none => 20
  let lastSets := getLastSetsForExercise db userId exerciseId
  match lastSets.head? with
  | none =>
      { weight := templateDefaultWeight, source := .template, incrementApplied := false }
  | some s0 =>
      let lastWeight := s0.weight.getD templateDefaultWeight
      let cycleProgress := calculateCycleProgress db userId programmeId
      let templateDoneInCurrentCycle := templateId ∈ cycleProgress.completedIds
      let shouldApplyIncrement :=
        cycleProgress.cycleComplete && !(decide templateDoneInCurrentCycle)
      { weight := if shouldApplyIncrement then lastWeight + increment else lastWeight
        source := .history
        incrementApplied := shouldApplyIncrement }

/-! ## Concrete databases used as test inputs -/

/-- Templates A (101), B (102), C (103) in programme 7, and completed-workout
history (newest to oldest) A, C, B, A, C, B, A for user 1; the workout list is
stored oldest-first so that the descending sort of the tracker is exercised. -/
def cycleExampleDB : GymDB :=
  { programmes := [⟨7, 1, "PPL", 1, 0⟩]
    templates :=
      [⟨101, 1, some 7, "A", 180, 0⟩, ⟨102, 1, some 7, "B", 180, 0⟩,
       ⟨103, 1, some 7, "C", 180, 0⟩]
    templateExercises := []
    workouts :=
      [⟨201, 1, some 101, 9, some 10⟩, ⟨202, 1, some 102, 19, some 20⟩,
       ⟨203, 1, some 103, 29, some 30⟩, ⟨204, 1, some 101, 39, some 40⟩,
       ⟨205, 1, some 102, 49, some 50⟩, ⟨206, 1, some 103, 59, some 60⟩,
       ⟨207, 1, some 101, 69, some 70⟩]
    sets := [] }

/-! ## C1: the worked cycle example and the shape of the backward walk -/

/-- C1: on templates T = {A, B, C} (ids 101, 102, 103) with history (newest to
oldest) [A, C, B, A, C, B, A], `calculateCycleProgress` returns
completedIds = {A}, cycleComplete = false and currentCycle = 2; and in general
the backward walk stops at the first template id already in the current-lap
set, while adding an id that makes the lap set equal in size to the full
template set increments the lap counter and resets the set to empty. -/
theorem cycleProgress_example_and_walk :
    calculateCycleProgress cycleExampleDB 1 7 = ⟨{101}, 3, false, 2⟩ ∧
    (∀ (total : Nat) (t : ℤ) (rest : List ℤ) (acc : Finset ℤ) (count : Nat),
      t ∈ acc → cycleWalk total (t :: rest) acc count = (acc, count)) ∧
    (∀ (total : Nat) (t : ℤ) (rest : List ℤ) (acc : Finset ℤ) (count : Nat),
      t ∉ acc → (insert t acc).card = total →
        cycleWalk total (t :: rest) acc count = cycleWalk total rest ∅ (count + 1)) := by
  refine ⟨by decide, ?_, ?_⟩
  · intro total t rest acc count ht
    simp [cycleWalk, ht]
  · intro total t rest acc count ht hcard
    simp [cycleWalk, ht, hcard]

/-- C1 witness: the two quantified walk facts evaluated at concrete inputs. -/
theorem cycleProgress_example_and_walk_witness :
    cycleWalk 3 [5, 9] {5} 4 = ({5}, 4) ∧
    cycleWalk 2 [9] {5} 0 = cycleWalk 2 [] ∅ 1 := by
  constructor
  · exact cycleProgress_example_and_walk.2.1 3 5 [9] {5} 4 (by decide)
  · exact cycleProgress_example_and_walk.2.2 2 9 [] {5} 0 (by decide) (by decide)

/-! ## C2: the cycle can never be reported complete -/

theorem cycleWalk_card_lt (total : Nat) (ids : List ℤ) (acc : Finset ℤ) (count : Nat)
    (h : acc.card < total) : ((cycleWalk total ids acc count).1).card < total := by
  induction ids generalizing acc count with
  | nil => simpa [cycleWalk] using h
  | cons t rest ih =>
      rw [cycleWalk]
      by_cases ht : t ∈ acc
      · simpa [ht] using h
      · simp only [ht, if_false]
        by_cases hc : (insert t acc).card = total
        · simp only [hc, if_true]
          exact ih ∅ (count + 1) (Nat.lt_of_le_of_lt (Nat.zero_le _) h)
        · simp only [hc, if_false]
          refine ih _ count ?_
          have hcard : (insert t acc).card = acc.card + 1 :=
            Finset.card_insert_of_not_mem ht
          omega

theorem cycleProgress_not_complete (db : GymDB) (userId programmeId : ℤ) :
    (calculateCycleProgress db userId programmeId).cycleComplete = false := by
  simp only [calculateCycleProgress]
  split
  · rfl
  · next h =>
      simp only
      rw [beq_eq_false_iff_ne]
      exact Nat.ne_of_lt (cycleWalk_card_lt _ _ _ _ (Nat.pos_of_ne_zero h))

theorem cycleProgress_card_ne (db : GymDB) (userId programmeId : ℤ)
    (h : 0 < (calculateCycleProgress db userId programmeId).totalTemplates) :
    (calculateCycleProgress db userId programmeId).completedIds.card ≠
      (calculateCycleProgress db userId programmeId).totalTemplates := by
  revert h
  simp only [calculateCycleProgress]
  split
  · intro h
    exact absurd h (by simp)
  · next h0 =>
      intro _
      simp only
      exact Nat.ne_of_lt (cycleWalk_card_lt _ _ _ _ (Nat.pos_of_ne_zero h0))

theorem displayWeight_no_increment (db : GymDB)
    (userId programmeId templateId exerciseId : ℤ) (te : TemplateExercise) :
    (calculateDisplayWeight db userId programmeId templateId exerciseId te).incrementApplied
      = false := by
  unfold calculateDisplayWeight
  cases h : (getLastSetsForExercise db userId exerciseId).head? with
  | none => simp [h]
  | some s0 => simp [h, cycleProgress_not_complete]

/-- An entirely empty local database: programme 1 has no templates at all. -/
def emptyGymDB : GymDB := ⟨[], [], [], [], []⟩

/-- C2 counterexample: for an empty programme the returned completedIds (the
empty set) does have size equal to totalTemplates (zero), refuting the clause
that the returned completedIds can never have size equal to totalTemplates. -/
theorem completedIds_card_eq_total_on_empty :
    (calculateCycleProgress emptyGymDB 1 1).completedIds.card =
      (calculateCycleProgress emptyGymDB 1 1).totalTemplates := by decide

/-- C2 (amended): every call of `calculateCycleProgress` returns
cycleComplete = false; when the programme is nonempty the returned
completedIds has size strictly different from totalTemplates (in the empty
case the two sizes are both zero but cycleComplete is returned false
explicitly); consequently `calculateDisplayWeight` never reports
incrementApplied = true. -/
theorem cycleComplete_never (db : GymDB) (userId programmeId : ℤ) :
    (calculateCycleProgress db userId programmeId).cycleComplete = false ∧
    (0 < (calculateCycleProgress db userId programmeId).totalTemplates →
      (calculateCycleProgress db userId programmeId).completedIds.card ≠
        (calculateCycleProgress db userId programmeId).totalTemplates) ∧
    (∀ (templateId exerciseId : ℤ) (te : TemplateExercise),
      (calculateDisplayWeight db userId programmeId templateId exerciseId te).incrementApplied
        = false) :=
  ⟨cycleProgress_not_complete db userId programmeId,
   cycleProgress_card_ne db userId programmeId,
   fun templateId exerciseId te =>
     displayWeight_no_increment db userId programmeId templateId exerciseId te⟩

/-- C2 witness: the amended statement evaluated on the concrete example
database, discharging the nonempty-programme hypothesis there. -/
theorem cycleComplete_never_witness :
    (calculateCycleProgress cycleExampleDB 1 7).cycleComplete = false ∧
    (calculateCycleProgress cycleExampleDB 1 7).completedIds.card ≠
      (calculateCycleProgress cycleExampleDB 1 7).totalTemplates := by
  obtain ⟨h1, h2, _⟩ := cycleComplete_never cycleExampleDB 1 7
  exact ⟨h1, h2 (by decide)⟩

/-! ## C3: the overload increment rule -/

/-- C3: with configured increment 2.5 and most recent actual weight 60, the
resolver returns 62.5 exactly when the computed cycle progress is complete and
the template is not yet done in the current lap, and 60 otherwise; the
incrementApplied flag matches that condition. -/
theorem displayWeight_increment_rule (db : GymDB)
    (userId programmeId templateId exerciseId : ℤ) (te : TemplateExercise)
    (hinc : te.increment = 2.5)
    (hhist : (getLastSetsForExercise db userId exerciseId).head?.map (·.weight)
      = some (some 60)) :
    (calculateDisplayWeight db userId programmeId templateId exerciseId te).weight =
      (if (calculateCycleProgress db userId programmeId).cycleComplete = true ∧
          templateId ∉ (calculateCycleProgress db userId programmeId).completedIds
        then 62.5 else 60) ∧
    ((calculateDisplayWeight db userId programmeId templateId exerciseId te).incrementApplied
        = true ↔
      (calculateCycleProgress db userId programmeId).cycleComplete = true ∧
        templateId ∉ (calculateCycleProgress db userId programmeId).completedIds) := by
  obtain ⟨s0, hs0, hw⟩ : ∃ s0,
      (getLastSetsForExercise db userId exerciseId).head? = some s0 ∧
        s0.weight = some 60 := by
    cases h : (getLastSetsForExercise db userId exerciseId).head? with
    | none => rw [h] at hhist; simp at hhist
    | some s =>
        rw [h] at hhist
        simp at hhist
        exact ⟨s, rfl, hhist⟩
  have hne : (2.5 : ℚ) ≠ 0 := by norm_num
  unfold calculateDisplayWeight
  simp only [hs0, hw, hinc, if_neg hne, Option.getD_some]
  constructor
  · by_cases hcond : (calculateCycleProgress db userId programmeId).cycleComplete = true ∧
        templateId ∉ (calculateCycleProgress db userId programmeId).completedIds
    · rw [if_pos hcond, if_pos (by simp [hcond.1, hcond.2])]
      norm_num
    · rw [if_neg hcond, if_neg ?_]
      simp only [Bool.and_eq_true, Bool.not_eq_true', decide_eq_false_iff_not]
      exact hcond
  · simp [Bool.and_eq_true, Bool.not_eq_true', decide_eq_false_iff_not]

/-- A database where exercise 50 has one logged set at weight 60 in the single
completed workout of template 101 (programme 7), with increment 2.5. -/
def overloadExampleDB : GymDB :=
  { programmes := [⟨7, 1, "PPL", 1, 0⟩]
    templates := [⟨101, 1, some 7, "A", 180, 0⟩]
    templateExercises := [⟨501, 101, 50, 0, [⟨5, 60⟩], 2.5⟩]
    workouts := [⟨201, 1, some 101, 0, some 10⟩]
    sets := [⟨301, 201, 50, 1, some 60, some 5, 10⟩] }

/-- C3 witness: on the concrete database (where the computed cycle is not
complete) the resolved weight is 60. -/
theorem displayWeight_increment_rule_witness :
    (calculateDisplayWeight overloadExampleDB 1 7 101 50 ⟨501, 101, 50, 0, [⟨5, 60⟩], 2.5⟩).weight
      = 60 :=
  ((displayWeight_increment_rule overloadExampleDB 1 7 101 50
      ⟨501, 101, 50, 0, [⟨5, 60⟩], 2.5⟩ (by norm_num) (by decide)).1).trans (by decide)

/-! ## C4: session pre-fill (`loadWorkoutData` in the active-workout page) -/

inductive SyncAction where
  | create
  | update
  | delete
deriving DecidableEq

/-- An outbox row: `id` is the Dexie auto-increment primary key, `data` an
opaque payload snapshot (none for a delete). -/
structure OutboxItem where
  id : Nat
  table : String
  recordId : ℤ
  action : SyncAction
  data : Option ℤ
  createdAt : Nat
deriving DecidableEq

/-- A generic record of one of the synced tables, reduced to its primary key
and an opaque content value. -/
structure DbRec where
  id : ℤ
  val : ℕ
deriving DecidableEq

structure UserInfo where
  id : ℤ
  isLocal : Bool
deriving DecidableEq

inductive SyncStatus where
  | idle
  | syncing
  | error
deriving DecidableEq

structure SyncState where
  user : Option UserInfo
  syncInProgress : Bool
  syncStatus : SyncStatus
  retryCount : Nat
  retryTimer : Option Nat
  errorResetTimer : Option Nat
  outbox : List OutboxItem
  nextOutboxId : Nat
  pendingChanges : Nat
  lastSyncKey : Option Nat
  lastSyncTime : Option Nat
  tables : List (String × List DbRec)
deriving DecidableEq

inductive PushResult where
  | ok
  | unauthorized
  | failStatus (code : Nat)
  | netError
deriving DecidableEq

inductive PullResult where
  | ok (changes : List (String × List DbRec))
  | unauthorized
  | failStatus (code : Nat)
  | netError
deriving DecidableEq

inductive FullResult where
  | ok (data : List (String × List DbRec))
  | failStatus (code : Nat)
  | netError
deriving DecidableEq

/-- The network oracle and clock for one call into the engine. -/
structure SyncEnv where
  push : PushResult
  pull : PullResult
  full : FullResult
  now : Nat
deriving DecidableEq

/-- A network request issued by the engine, with the data it carried. -/
inductive Request where
  | push (changes : List OutboxItem)
  | pull (since : Nat)
  | full
deriving DecidableEq

def RETRY_DELAYS : List Nat := [1000, 3000, 10000]

def MAX_RETRIES : Nat := 3

def ERROR_RESET_DELAY : Nat := 10000

/-- `isAuthenticated()`: a user is present and not the local-only identity. -/
def isAuthenticated (st : SyncState) : Bool :=
  match st.user with
  | some u => !u.isLocal
  | none => false

/-- Dexie `db.outbox.orderBy(createdAt)`: index order is the key with ties
broken by the auto-increment primary key. -/
def orderByCreatedAt (l : List OutboxItem) : List OutboxItem :=
  sortBy (fun a b =>
    a.createdAt < b.createdAt || (a.createdAt == b.createdAt && a.id ≤ b.id)) l

/-- `updatePendingCount()`: the pending counter is set to the outbox count. -/
def updatePendingCount (st : SyncState) : SyncState :=
  { st with pendingChanges := st.outbox.length }

/-- One local mutation presented to `queueChange`, with the `Date.now()`
value at enqueue time. -/
structure Mutation where
  table : String
  recordId : ℤ
  action : SyncAction
  data : Option ℤ
  time : Nat
deriving DecidableEq

/-- `queueChange(table, recordId, action, data)`: append one outbox row with
the auto-increment key and the enqueue time, then refresh the counter. The
fire-and-forget `syncIfOnline()` trigger is a separate call of `sync`. -/
def queueChange (st : SyncState) (m : Mutation) : SyncState :=
  updatePendingCount
    { st with
        outbox := st.outbox ++
          [⟨st.nextOutboxId, m.table, m.recordId, m.action, m.data, m.time⟩]
        nextOutboxId := st.nextOutboxId + 1 }

def queueAll (st : SyncState) (ms : List Mutation) : SyncState :=
  ms.foldl queueChange st

/-- The success branch of the push phase (sync.ts lines 192-196): delete from
the outbox exactly the ids of the batch that was sent, then refresh the
pending counter. -/
def applyPushSuccess (st : SyncState) (pending : List OutboxItem) : SyncState :=
  let ids := pending.map (·.id)
  updatePendingCount { st with outbox := st.outbox.filter (fun e => !ids.contains e.id) }

/-- `scheduleRetry()` (sync.ts lines 134-162). -/
def scheduleRetry (st : SyncState) : SyncState :=
  if MAX_RETRIES ≤ st.retryCount then
    { st with
        syncStatus := .error
        errorResetTimer := some ERROR_RESET_DELAY
        retryCount := 0 }
  else
    { st with
        retryCount := st.retryCount + 1
        retryTimer := some
          (match RETRY_DELAYS[st.retryCount]? with
           | some d => d
           | none => RETRY_DELAYS.getD (RETRY_DELAYS.length - 1) 0) }

/-- The state changes `sync()` performs before its first await: set the
single-flight flag, show `syncing`, clear the error-reset timer. -/
def syncBegin (st : SyncState) : SyncState :=
  { st with syncInProgress := true, syncStatus := .syncing, errorResetTimer := none }

/-- `bulkPut` of one record: replace the row with the same primary key, or
append. -/
def putRec (l : List DbRec) (r : DbRec) : List DbRec :=
  if l.any (fun x => x.id == r.id) then
    l.map (fun x => if x.id == r.id then r else x)
  else l ++ [r]

def bulkPut (l : List DbRec) (rs : List DbRec) : List DbRec :=
  rs.foldl putRec l

def tableGet (tabs : List (String × List DbRec)) (name : String) : List DbRec :=
  match tabs.find? (fun p => p.1 == name) with
  | some p => p.2
  | none => []

def tableSet : List (String × List DbRec) → String → List DbRec →
    List (String × List DbRec)
  | [], name, recs => [(name, recs)]
  | q :: qs, name, recs =>
      if q.1 == name then (name, recs) :: qs else q :: tableSet qs name recs

/-- `db.table(name).bulkPut(records)`: upsert into the current contents. -/
def tableBulkPut (tabs : List (String × List DbRec)) (name : String)
    (recs : List DbRec) : List (String × List DbRec) :=
  tableSet tabs name (bulkPut (tableGet tabs name) recs)

/-- `db.table(name).clear()`. -/
def tableClear (tabs : List (String × List DbRec)) (name : String) :
    List (String × List DbRec) :=
  tableSet tabs name []

/-- The pull phase of `sync()` (sync.ts lines 207-234), including the shared
catch handler: bulk-upsert each nonempty table of the response, store the new
watermark, and on success reset the retry counter; a pull 401 is skipped
silently and still reaches the success epilogue. -/
def pullPhase (env : SyncEnv) (st : SyncState) (reqs : List Request) :
    Bool × SyncState × List Request :=
  let since := st.lastSyncKey.getD 0
  let reqs := reqs ++ [Request.pull since]
  match env.pull with
  | .ok changes =>
      let tabs := changes.foldl
        (fun tabs nc => if 0 < nc.2.length then tableBulkPut tabs nc.1 nc.2 else tabs)
        st.tables
      (true,
        { st with
            tables := tabs
            lastSyncKey := some env.now
            lastSyncTime := some env.now
            retryCount := 0
            syncStatus := .idle
            syncInProgress := false }, reqs)
  | .unauthorized =>
      (true,
        { st with retryCount := 0, syncStatus := .idle, syncInProgress := false }, reqs)
  | _ =>
      (false, scheduleRetry { st with syncInProgress := false }, reqs)

/-- `sync()` (sync.ts lines 165-241). -/
def sync (env : SyncEnv) (st : SyncState) : Bool × SyncState × List Request :=
  if !isAuthenticated st then (false, st, [])
  else if st.syncInProgress then (false, st, [])
  else
    let st1 := syncBegin st
    let pending := orderByCreatedAt st1.outbox
    if pending.isEmpty then pullPhase env st1 []
    else
      match env.push with
      | .ok => pullPhase env (applyPushSuccess st1 pending) [Request.push pending]
      | .unauthorized =>
          (false, { st1 with syncStatus := .idle, syncInProgress := false },
            [Request.push pending])
      | _ =>
          (false, scheduleRetry { st1 with syncInProgress := false },
            [Request.push pending])

/-- One processed entry of the full-sync response: clear the table, then
bulk-put the records if there are any (fullSync, sync.ts lines 287-294). -/
def applyFullData (tabs : List (String × List DbRec))
    (data : List (String × List DbRec)) : List (String × List DbRec) :=
  data.foldl
    (fun tabs nc =>
      let tabs := tableClear tabs nc.1
      if 0 < nc.2.length then tableBulkPut tabs nc.1 nc.2 else tabs)
    tabs

/-- `fullSync()` (sync.ts lines 270-320). -/
def fullSync (env : SyncEnv) (st : SyncState) : Bool × SyncState × List Request :=
  if st.syncInProgress then (false, st, [])
  else
    let st1 := { st with syncInProgress := true, syncStatus := .syncing }
    match env.full with
    | .ok data =>
        (true,
          { st1 with
              tables := applyFullData st1.tables data
              lastSyncKey := some env.now
              lastSyncTime := some env.now
              syncStatus := .idle
              syncInProgress := false }, [Request.full])
    | _ =>
        (false,
          { st1 with
              syncStatus := .error
              syncInProgress := false
              errorResetTimer := some ERROR_RESET_DELAY }, [Request.full])

/-- The scheduled retry firing: the timeout handle is consumed (the callback
then re-invokes `sync`, modelled as a separate call). -/
def retryFires (st : SyncState) : SyncState :=
  { st with retryTimer := none }

/-- The error-reset timeout firing (sync.ts lines 141-145): back to idle only
if the status is still `error`. -/
def errorResetFires (st : SyncState) : SyncState :=
  if st.syncStatus = .error then { st with syncStatus := .idle } else st

def countPush (reqs : List Request) : Nat :=
  (reqs.filter (fun r => match r with | .push _ => true | _ => false)).length

/-! ## C5: the push body is the outbox in enqueue order -/

/-- The outbox rows that a sequence of `queueChange` calls appends, with
auto-increment keys starting at `n`. -/
def enqueuedItems (n : Nat) : List Mutation → List OutboxItem
  | [] => []
  | m :: rest => ⟨n, m.table, m.recordId, m.action, m.data, m.time⟩ ::
      enqueuedItems (n + 1) rest

theorem queueAll_outbox (st : SyncState) (ms : List Mutation) :
    (queueAll st ms).outbox = st.outbox ++ enqueuedItems st.nextOutboxId ms := by
  induction ms generalizing st with
  | nil => simp [queueAll, enqueuedItems]
  | cons m rest ih =>
      have := ih (queueChange st m)
      simp only [queueAll, List.foldl] at *
      rw [this]
      simp [queueChange, updatePendingCount, enqueuedItems]

theorem queueAll_user (st : SyncState) (ms : List Mutation) :
    (queueAll st ms).user = st.user ∧
      (queueAll st ms).syncInProgress = st.syncInProgress := by
  induction ms generalizing st with
  | nil => exact ⟨rfl, rfl⟩
  | cons m rest ih =>
      have := ih (queueChange st m)
      simpa [queueAll, queueChange, updatePendingCount] using this

theorem mem_enqueuedItems {b : OutboxItem} {n : Nat} {ms : List Mutation}
    (hb : b ∈ enqueuedItems n ms) :
    n ≤ b.id ∧ ∃ m ∈ ms, b.createdAt = m.time := by
  induction ms generalizing n with
  | nil => simp [enqueuedItems] at hb
  | cons m rest ih =>
      simp only [enqueuedItems, List.mem_cons] at hb
      rcases hb with rfl | hb
      · exact ⟨le_refl n, m, List.mem_cons_self m rest, rfl⟩
      · obtain ⟨h1, m', hm', h2⟩ := ih hb
        exact ⟨le_trans (Nat.le_succ n) h1, m', List.mem_cons_of_mem m hm', h2⟩

theorem pairwise_enqueuedItems (n : Nat) (ms : List Mutation)
    (h : ms.Pairwise (fun a b => a.time ≤ b.time)) :
    (enqueuedItems n ms).Pairwise (fun a b =>
      (a.createdAt < b.createdAt ||
        (a.createdAt == b.createdAt && a.id ≤ b.id)) = true) := by
  induction ms generalizing n with
  | nil => exact List.Pairwise.nil
  | cons m rest ih =>
      rcases List.pairwise_cons.mp h with ⟨hm, hrest⟩
      refine List.pairwise_cons.mpr ⟨?_, ih (n + 1) hrest⟩
      intro b hb
      obtain ⟨hid, m', hm', htime⟩ := mem_enqueuedItems hb
      have h1 : m.time ≤ m'.time := hm m' hm'
      simp only [Bool.or_eq_true, Bool.and_eq_true, decide_eq_true_eq, beq_iff_eq]
      omega

/-- The module initial state: an authenticated (non-local) user, no sync in
flight, an empty outbox with the auto-increment counter at 1. -/
def initialSyncState : SyncState :=
  { user := some ⟨1, false⟩
    syncInProgress := false
    syncStatus := .idle
    retryCount := 0
    retryTimer := none
    errorResetTimer := none
    outbox := []
    nextOutboxId := 1
    pendingChanges := 0
    lastSyncKey := none
    lastSyncTime := none
    tables := [] }

/-- C5: after any sequence of `queueChange` calls with nondecreasing clock
readings, the outbox holds exactly those entries in enqueue order, sorting by
creation time leaves that order unchanged, and the push request issued by the
next `sync` carries exactly this list as its changes array. -/
theorem outbox_push_order (ms : List Mutation)
    (h : ms.Pairwise (fun a b => a.time ≤ b.time)) :
    (queueAll initialSyncState ms).outbox = enqueuedItems 1 ms ∧
    orderByCreatedAt (queueAll initialSyncState ms).outbox =
      (queueAll initialSyncState ms).outbox ∧
    (∀ env : SyncEnv, ms ≠ [] →
      (sync env (queueAll initialSyncState ms)).2.2.head? =
        some (Request.push (queueAll initialSyncState ms).outbox)) := by
  have hout : (queueAll initialSyncState ms).outbox = enqueuedItems 1 ms := by
    simpa [initialSyncState] using queueAll_outbox initialSyncState ms
  have hsorted : orderByCreatedAt (queueAll initialSyncState ms).outbox =
      (queueAll initialSyncState ms).outbox := by
    rw [hout]
    exact sortBy_eq_self _ _ (pairwise_enqueuedItems 1 ms h)
  refine ⟨hout, hsorted, ?_⟩
  intro env hne
  have hauth : isAuthenticated (queueAll initialSyncState ms) = true := by
    rw [isAuthenticated, (queueAll_user initialSyncState ms).1]
    rfl
  have hflight : (queueAll initialSyncState ms).syncInProgress = false :=
    (queueAll_user initialSyncState ms).2
  have hpend : orderByCreatedAt (syncBegin (queueAll initialSyncState ms)).outbox =
      (queueAll initialSyncState ms).outbox := hsorted
  have hne' : (queueAll initialSyncState ms).outbox ≠ [] := by
    rw [hout]
    cases ms with
    | nil => exact absurd rfl hne
    | cons m rest => simp [enqueuedItems]
  rw [sync, hauth, hflight]
  simp only [Bool.not_true, Bool.false_eq_true, if_false]
  rw [show (syncBegin (queueAll initialSyncState ms)).outbox =
      (queueAll initialSyncState ms).outbox from rfl] at hpend ⊢
  rw [hpend]
  rw [if_neg (by simpa [List.isEmpty_iff] using hne')]
  cases env.push with
  | ok =>
      rw [pullPhase]
      cases env.pull <;> rfl
  | unauthorized => rfl
  | failStatus code => rfl
  | netError => rfl

def msExample : List Mutation :=
  [⟨"workouts", -1, .create, some 5, 100⟩,
   ⟨"sets", -2, .create, some 6, 100⟩,
   ⟨"workouts", -1, .update, some 7, 200⟩]

def envOffline : SyncEnv := ⟨.netError, .netError, .netError, 500⟩

/-- C5 witness: three concrete mutations, two sharing a clock reading, end up
in the outbox and in the push request in exactly enqueue order. -/
theorem outbox_push_order_witness :
    orderByCreatedAt (queueAll initialSyncState msExample).outbox =
      (queueAll initialSyncState msExample).outbox ∧
    (sync envOffline (queueAll initialSyncState msExample)).2.2.head? =
      some (Request.push (queueAll initialSyncState msExample).outbox) := by
  obtain ⟨h1, h2, h3⟩ := outbox_push_order msExample (by decide)
  exact ⟨h2, h3 envOffline (by decide)⟩

/-! ## C6: push success deletes exactly the sent entries -/

/-- C6: when the push of a batch succeeds, exactly the batch rows are deleted
from the outbox: entries queued concurrently while the request was in flight
(here `extras`) all remain, in order, and the pending counter is recomputed as
the count of the remaining entries. -/
theorem push_success_frame (st0 : SyncState) (extras : List Mutation)
    (hwf : ∀ e ∈ st0.outbox, e.id < st0.nextOutboxId) :
    (applyPushSuccess (queueAll st0 extras) (orderByCreatedAt st0.outbox)).outbox =
      enqueuedItems st0.nextOutboxId extras ∧
    (∀ e ∈ st0.outbox,
      e ∉ (applyPushSuccess (queueAll st0 extras) (orderByCreatedAt st0.outbox)).outbox) ∧
    (applyPushSuccess (queueAll st0 extras) (orderByCreatedAt st0.outbox)).pendingChanges =
      (enqueuedItems st0.nextOutboxId extras).length := by
  have hperm := sortBy_perm
    (fun a b => a.createdAt < b.createdAt || (a.createdAt == b.createdAt && a.id ≤ b.id))
    st0.outbox
  have hids : ∀ i ∈ (orderByCreatedAt st0.outbox).map (·.id), i < st0.nextOutboxId := by
    intro i hi
    obtain ⟨e, he, rfl⟩ := List.mem_map.mp hi
    exact hwf e (hperm.mem_iff.mp he)
  have hmain : (applyPushSuccess (queueAll st0 extras) (orderByCreatedAt st0.outbox)).outbox =
      enqueuedItems st0.nextOutboxId extras := by
    simp only [applyPushSuccess, updatePendingCount]
    rw [queueAll_outbox, List.filter_append]
    have h1 : st0.outbox.filter
        (fun e => !((orderByCreatedAt st0.outbox).map (·.id)).contains e.id) = [] := by
      rw [List.filter_eq_nil_iff]
      intro e he
      simp only [Bool.not_eq_true', Bool.not_eq_false]
      exact List.elem_iff.mpr (List.mem_map.mpr ⟨e, hperm.mem_iff.mpr he, rfl⟩)
    have h2 : (enqueuedItems st0.nextOutboxId extras).filter
        (fun e => !((orderByCreatedAt st0.outbox).map (·.id)).contains e.id) =
        enqueuedItems st0.nextOutboxId extras := by
      rw [List.filter_eq_self]
      intro b hb
      obtain ⟨hid, _, _, _⟩ := mem_enqueuedItems hb
      simp only [Bool.not_eq_true', Bool.eq_false_iff, ne_eq]
      intro hcontra
      have := hids b.id (List.elem_iff.mp hcontra)
      omega
    rw [h1, h2, List.nil_append]
  refine ⟨hmain, ?_, ?_⟩
  · intro e he hmem
    rw [hmain] at hmem
    obtain ⟨hid, _, _, _⟩ := mem_enqueuedItems hmem
    have := hwf e he
    omega
  · simp only [applyPushSuccess, updatePendingCount] at hmain ⊢
    rw [hmain]

def concurrentBase : SyncState :=
  queueAll initialSyncState
    [⟨"workouts", -1, .create, some 5, 100⟩, ⟨"sets", -2, .create, some 6, 150⟩]

/-- C6 witness: a batch of two entries is pushed while one more entry is
queued concurrently; afterwards exactly that one entry remains and the
counter reads 1. -/
theorem push_success_frame_witness :
    (applyPushSuccess (queueAll concurrentBase [⟨"workouts", -1, .update, some 7, 200⟩])
        (orderByCreatedAt concurrentBase.outbox)).outbox =
      enqueuedItems concurrentBase.nextOutboxId
        [⟨"workouts", -1, .update, some 7, 200⟩] ∧
    (applyPushSuccess (queueAll concurrentBase [⟨"workouts", -1, .update, some 7, 200⟩])
        (orderByCreatedAt concurrentBase.outbox)).pendingChanges =
      (enqueuedItems concurrentBase.nextOutboxId
        [⟨"workouts", -1, .update, some 7, 200⟩]).length := by
  obtain ⟨h1, _, h3⟩ := push_success_frame concurrentBase
    [⟨"workouts", -1, .update, some 7, 200⟩] (by decide)
  exact ⟨h1, h3⟩

/-! ## C7: single flight, anonymous no-op -/

/-- C7: when the user is anonymous/local-only or a sync is already in flight,
`sync()` returns false with the state untouched (no request, no outbox or
watermark change); consequently, of two overlapping invocations — the second
arriving after the first has set the single-flight flag — only the first
issues a push request, so exactly one push goes out. -/
theorem sync_single_flight :
    (∀ (env : SyncEnv) (st : SyncState),
      isAuthenticated st = false ∨ st.syncInProgress = true →
      sync env st = (false, st, [])) ∧
    (∀ (env env2 : SyncEnv) (st : SyncState),
      isAuthenticated st = true → st.syncInProgress = false → st.outbox ≠ [] →
      sync env2 (syncBegin st) = (false, syncBegin st, []) ∧
      countPush ((sync env st).2.2 ++ (sync env2 (syncBegin st)).2.2) = 1) := by
  have noop : ∀ (env : SyncEnv) (st : SyncState),
      isAuthenticated st = false ∨ st.syncInProgress = true →
      sync env st = (false, st, []) := by
    intro env st h
    rcases h with h | h
    · simp [sync, h]
    · cases hauth : isAuthenticated st with
      | false => simp [sync, hauth]
      | true => simp [sync, hauth, h]
  refine ⟨noop, ?_⟩
  intro env env2 st hauth hflight hne
  have hsecond : sync env2 (syncBegin st) = (false, syncBegin st, []) :=
    noop env2 (syncBegin st) (Or.inr rfl)
  refine ⟨hsecond, ?_⟩
  rw [hsecond]
  have hperm : (orderByCreatedAt st.outbox).Perm st.outbox := sortBy_perm _ st.outbox
  have hpendne : orderByCreatedAt (syncBegin st).outbox ≠ [] := by
    intro hcontra
    rw [show (syncBegin st).outbox = st.outbox from rfl] at hcontra
    exact hne (List.eq_nil_of_length_eq_zero (by rw [← hperm.length_eq, hcontra]; rfl))
  rw [sync, hauth, hflight]
  simp only [Bool.not_true, Bool.false_eq_true, if_false]
  rw [if_neg (by simpa [List.isEmpty_iff] using hpendne)]
  cases env.push with
  | ok =>
      rw [pullPhase]
      cases env.pull <;> simp [countPush]
  | unauthorized => simp [countPush]
  | failStatus code => simp [countPush]
  | netError => simp [countPush]

/-- C7 witness: concretely, an in-flight engine ignores a second call, and
the overlapped pair of calls issues a single push request. -/
theorem sync_single_flight_witness :
    sync envOffline (syncBegin concurrentBase) = (false, syncBegin concurrentBase, []) ∧
    countPush ((sync envOffline concurrentBase).2.2 ++
      (sync envOffline (syncBegin concurrentBase)).2.2) = 1 :=
  (sync_single_flight).2 envOffline envOffline concurrentBase (by decide) (by decide)
    (by decide)

/-! ## C8: push 401 aborts silently -/

/-- C8: a 401 on the push request makes `sync()` return false with status
idle, scheduling no retry and leaving the retry counter, the outbox and the
stored watermark untouched; the only request issued is the push — no pull is
attempted. -/
theorem sync_push_unauthorized (env : SyncEnv) (st : SyncState)
    (hauth : isAuthenticated st = true) (hflight : st.syncInProgress = false)
    (hne : st.outbox ≠ []) (h401 : env.push = .unauthorized) :
    (sync env st).1 = false ∧
    (sync env st).2.1.syncStatus = .idle ∧
    (sync env st).2.1.syncInProgress = false ∧
    (sync env st).2.1.retryCount = st.retryCount ∧
    (sync env st).2.1.retryTimer = st.retryTimer ∧
    (sync env st).2.1.outbox = st.outbox ∧
    (sync env st).2.1.lastSyncKey = st.lastSyncKey ∧
    (sync env st).2.1.tables = st.tables ∧
    (sync env st).2.2 = [Request.push (orderByCreatedAt st.outbox)] := by
  have hperm : (orderByCreatedAt st.outbox).Perm st.outbox := sortBy_perm _ st.outbox
  have hpendne : orderByCreatedAt (syncBegin st).outbox ≠ [] := by
    intro hcontra
    rw [show (syncBegin st).outbox = st.outbox from rfl] at hcontra
    exact hne (List.eq_nil_of_length_eq_zero (by rw [← hperm.length_eq, hcontra]; rfl))
  rw [sync, hauth, hflight]
  simp only [Bool.not_true, Bool.false_eq_true, if_false]
  rw [if_neg (by simpa [List.isEmpty_iff] using hpendne), h401]
  exact ⟨rfl, rfl, rfl, rfl, rfl, rfl, rfl, rfl, rfl⟩

def env401 : SyncEnv := ⟨.unauthorized, .netError, .netError, 500⟩

/-- C8 witness: the 401 abort evaluated on a concrete engine state with two
pending outbox entries. -/
theorem sync_push_unauthorized_witness :
    (sync env401 concurrentBase).1 = false ∧
    (sync env401 concurrentBase).2.1.syncStatus = .idle ∧
    (sync env401 concurrentBase).2.1.outbox = concurrentBase.outbox ∧
    (sync env401 concurrentBase).2.2 =
      [Request.push (orderByCreatedAt concurrentBase.outbox)] := by
  obtain ⟨h1, h2, _, _, _, h6, _, _, h9⟩ := sync_push_unauthorized env401 concurrentBase
    (by decide) (by decide) (by decide) rfl
  exact ⟨h1, h2, h6, h9⟩

/-! ## C9: retry schedule 1s, 3s, 10s, then a self-resetting error -/

def failingEnv : SyncEnv := ⟨.netError, .netError, .netError, 0⟩

/-- An authenticated idle engine with one pending outbox entry, about to meet
a failing network. -/
def retryStart : SyncState :=
  { initialSyncState with
      outbox := [⟨1, "workouts", -1, .create, some 5, 100⟩]
      nextOutboxId := 2
      pendingChanges := 1 }

/-- The engine state after one more failing sync attempt. -/
def retryFail (st : SyncState) : SyncState := (sync failingEnv st).2.1

/-- C9: against a persistently failing network the first three failures
schedule retries with delays 1000, 3000 and 10000 ms (attempt counter 1, 2,
3) and do not yet enter the error state; the next failure — the third retry
failing — schedules no further retry, transitions to error with the attempt
counter reset and a 10-second error-reset timer, which when it fires returns
the status to idle; and any sync call that returns true resets the attempt
counter to zero. -/
theorem retry_schedule :
    (retryFail retryStart).retryTimer = some 1000 ∧
    (retryFail retryStart).retryCount = 1 ∧
    (retryFail (retryFires (retryFail retryStart))).retryTimer = some 3000 ∧
    (retryFail (retryFires (retryFail retryStart))).retryCount = 2 ∧
    (retryFail (retryFires (retryFail (retryFires (retryFail retryStart))))).retryTimer =
      some 10000 ∧
    (retryFail (retryFires (retryFail (retryFires (retryFail retryStart))))).retryCount = 3 ∧
    (retryFail (retryFires (retryFail (retryFires (retryFail retryStart))))).syncStatus ≠
      .error ∧
    (retryFail (retryFires (retryFail (retryFires (retryFail (retryFires
      (retryFail retryStart))))))).syncStatus = .error ∧
    (retryFail (retryFires (retryFail (retryFires (retryFail (retryFires
      (retryFail retryStart))))))).retryTimer = none ∧
    (retryFail (retryFires (retryFail (retryFires (retryFail (retryFires
      (retryFail retryStart))))))).retryCount = 0 ∧
    (retryFail (retryFires (retryFail (retryFires (retryFail (retryFires
      (retryFail retryStart))))))).errorResetTimer = some 10000 ∧
    (errorResetFires (retryFail (retryFires (retryFail (retryFires (retryFail (retryFires
      (retryFail retryStart)))))))).syncStatus = .idle ∧
    (∀ (env : SyncEnv) (st : SyncState),
      (sync env st).1 = true → (sync env st).2.1.retryCount = 0) := by
  refine ⟨by decide, by decide, by decide, by decide, by decide, by decide, by decide,
    by decide, by decide, by decide, by decide, by decide, ?_⟩
  intro env st
  unfold sync pullPhase
  cases hauth : isAuthenticated st with
  | false => simp
  | true =>
      simp only [Bool.not_true, Bool.false_eq_true, if_false]
      by_cases hflight : st.syncInProgress = true
      · simp [if_pos hflight]
      · simp only [if_neg hflight]
        by_cases hempty : (orderByCreatedAt (syncBegin st).outbox).isEmpty = true
        · simp only [if_pos hempty]
          cases env.pull <;> simp
        · simp only [if_neg hempty]
          cases env.push with
          | ok => cases env.pull <;> simp
          | unauthorized => simp
          | failStatus code => simp
          | netError => simp

def envAllOk : SyncEnv := ⟨.ok, .ok [], .ok [], 700⟩

/-- C9 witness: a successful sync call concretely resets the attempt counter
to zero. -/
theorem retry_schedule_witness :
    (sync envAllOk (retryFires (retryFail retryStart))).2.1.retryCount = 0 :=
  retry_schedule.2.2.2.2.2.2.2.2.2.2.2.2 envAllOk (retryFires (retryFail retryStart))
    (by decide)

/-! ## C10: fullSync replaces tables wholesale — but does move the watermark -/

theorem tableGet_tableSet_self (tabs : List (String × List DbRec)) (name : String)
    (recs : List DbRec) : tableGet (tableSet tabs name recs) name = recs := by
  induction tabs with
  | nil => simp [tableSet, tableGet]
  | cons q qs ih =>
      by_cases hq : (q.1 == name) = true
      · simp [tableSet, tableGet, hq]
      · have hq' : (q.1 == name) = false := by
          simpa using hq
        simp [tableSet, tableGet, hq'] at ih ⊢
        exact ih

theorem tableGet_tableSet_other (tabs : List (String × List DbRec))
    (other name : String) (recs : List DbRec) (h : (other == name) = false) :
    tableGet (tableSet tabs other recs) name = tableGet tabs name := by
  induction tabs with
  | nil => simp [tableSet, tableGet, h]
  | cons q qs ih =>
      by_cases hq : (q.1 == other) = true
      · have hq1 : q.1 = other := by simpa using hq
        have hq2 : (q.1 == name) = false := by
          rw [hq1]; exact h
        simp [tableSet, tableGet, hq, h, hq2]
      · have hq' : (q.1 == other) = false := by simpa using hq
        by_cases hn : (q.1 == name) = true
        · simp [tableSet, tableGet, hq', hn]
        · have hn' : (q.1 == name) = false := by simpa using hn
          simp [tableSet, tableGet, hq', hn'] at ih ⊢
          exact ih

theorem bulkPut_append (rs : List DbRec) : ∀ (acc : List DbRec),
    (∀ r ∈ rs, ∀ x ∈ acc, (x.id == r.id) = false) →
    (rs.map DbRec.id).Nodup → bulkPut acc rs = acc ++ rs := by
  induction rs with
  | nil => intro acc _ _; simp [bulkPut]
  | cons r rest ih =>
      intro acc hdisj hnodup
      have hput : putRec acc r = acc ++ [r] := by
        have : acc.any (fun x => x.id == r.id) = false := by
          rw [List.any_eq_false]
          intro x hx
          rw [hdisj r (List.mem_cons_self r rest) x hx]
          simp
        simp [putRec, this]
      have hrest : ∀ r' ∈ rest, ∀ x ∈ acc ++ [r], (x.id == r'.id) = false := by
        intro r' hr' x hx
        rcases List.mem_append.mp hx with hx | hx
        · exact hdisj r' (List.mem_cons_of_mem r hr') x hx
        · have hxr : x = r := List.mem_singleton.mp hx
          subst hxr
          have hne : x.id ∉ rest.map DbRec.id :=
            (List.nodup_cons.mp hnodup).1
          rw [beq_eq_false_iff_ne]
          intro hcontra
          exact hne (hcontra ▸ List.mem_map.mpr ⟨r', hr', rfl⟩)
      calc bulkPut acc (r :: rest) = bulkPut (acc ++ [r]) rest := by
            simp [bulkPut, hput]
        _ = (acc ++ [r]) ++ rest := ih (acc ++ [r]) hrest (List.nodup_cons.mp hnodup).2
        _ = acc ++ (r :: rest) := by simp

theorem tableGet_applyFullData_not_mem (data : List (String × List DbRec)) :
    ∀ (tabs : List (String × List DbRec)) (name : String),
    (∀ nc ∈ data, (nc.1 == name) = false) →
    tableGet (applyFullData tabs data) name = tableGet tabs name := by
  induction data with
  | nil => intro tabs name _; rfl
  | cons d rest ih =>
      intro tabs name h
      have hd : (d.1 == name) = false := h d (List.mem_cons_self d rest)
      have hrest : ∀ nc ∈ rest, (nc.1 == name) = false :=
        fun nc hnc => h nc (List.mem_cons_of_mem d hnc)
      show tableGet (applyFullData
        (if 0 < d.2.length then tableBulkPut (tableClear tabs d.1) d.1 d.2
         else tableClear tabs d.1) rest) name = tableGet tabs name
      rw [ih _ name hrest]
      by_cases hlen : 0 < d.2.length
      · rw [if_pos hlen, tableBulkPut, tableGet_tableSet_other _ _ _ _ hd,
          tableClear, tableGet_tableSet_other _ _ _ _ hd]
      · rw [if_neg hlen, tableClear, tableGet_tableSet_other _ _ _ _ hd]

theorem tableGet_applyFullData_mem (data : List (String × List DbRec)) :
    ∀ (tabs : List (String × List DbRec)),
    (data.map Prod.fst).Nodup →
    (∀ nc ∈ data, (nc.2.map DbRec.id).Nodup) →
    ∀ nc ∈ data, tableGet (applyFullData tabs data) nc.1 = nc.2 := by
  induction data with
  | nil => intro tabs _ _ nc hnc; simp at hnc
  | cons d rest ih =>
      intro tabs hnames hids nc hnc
      rw [List.map_cons, List.nodup_cons] at hnames
      have hstep : applyFullData tabs (d :: rest) = applyFullData
          (if 0 < d.2.length then tableBulkPut (tableClear tabs d.1) d.1 d.2
           else tableClear tabs d.1) rest := rfl
      rcases List.mem_cons.mp hnc with rfl | hnc
      · have hnotmem : ∀ nc' ∈ rest, (nc'.1 == nc.1) = false := by
          intro nc' hnc'
          rw [beq_eq_false_iff_ne]
          intro hcontra
          exact hnames.1 (hcontra ▸ List.mem_map.mpr ⟨nc', hnc', rfl⟩)
        rw [hstep, tableGet_applyFullData_not_mem rest _ nc.1 hnotmem]
        by_cases hlen : 0 < nc.2.length
        · rw [if_pos hlen, tableBulkPut, tableClear, tableGet_tableSet_self,
            tableGet_tableSet_self,
            bulkPut_append nc.2 [] (by intro r _ x hx; simp at hx)
              (hids nc (List.mem_cons_self nc rest)),
            List.nil_append]
        · have : nc.2 = [] := by
            cases h2 : nc.2 with
            | nil => rfl
            | cons a l => rw [h2] at hlen; simp at hlen
          rw [if_neg hlen, tableClear, tableGet_tableSet_self, this]
      · exact ih _ hnames.2
          (fun nc' hnc' => hids nc' (List.mem_cons_of_mem d hnc')) nc hnc

/-- A local state holding a stored watermark 5 and one local row in the
workouts table. -/
def fullStart : SyncState :=
  { initialSyncState with
      lastSyncKey := some 5
      tables := [("workouts", [⟨2, 9⟩])] }

def fullEnv : SyncEnv := ⟨.netError, .netError, .ok [("workouts", [⟨1, 5⟩])], 999⟩

/-- C10 counterexample: a successful `fullSync` DOES change the stored pull
watermark — it overwrites the lastSync key (5 here) with the current time
(999), refuting the claim that the watermark is left unchanged. -/
theorem fullSync_watermark_counterexample :
    (fullSync fullEnv fullStart).2.1.lastSyncKey = some 999 ∧
    fullStart.lastSyncKey = some 5 := by decide

/-- C10 (amended): a successful `fullSync` bypasses the outbox (it neither
reads nor modifies it, and the pending counter is untouched) and replaces
every table named in the snapshot wholesale, so each such table ends up equal
to exactly the snapshot records (empty snapshot lists leave the table empty);
however it does not leave the stored pull watermark unchanged: on success the
watermark is set to the current time. -/
theorem fullSync_replaces_tables (env : SyncEnv) (st : SyncState)
    (data : List (String × List DbRec))
    (hflight : st.syncInProgress = false) (hok : env.full = .ok data)
    (hnames : (data.map Prod.fst).Nodup)
    (hids : ∀ nc ∈ data, (nc.2.map DbRec.id).Nodup) :
    (fullSync env st).1 = true ∧
    (fullSync env st).2.2 = [Request.full] ∧
    (fullSync env st).2.1.outbox = st.outbox ∧
    (fullSync env st).2.1.pendingChanges = st.pendingChanges ∧
    (fullSync env st).2.1.nextOutboxId = st.nextOutboxId ∧
    (fullSync env st).2.1.lastSyncKey = some env.now ∧
    (∀ nc ∈ data, tableGet (fullSync env st).2.1.tables nc.1 = nc.2) := by
  rw [fullSync, if_neg (by simp [hflight]), hok]
  refine ⟨rfl, rfl, rfl, rfl, rfl, rfl, ?_⟩
  intro nc hnc
  exact tableGet_applyFullData_mem data _ hnames hids nc hnc

/-- C10 witness: the amended statement evaluated on the concrete state — the
snapshot replaces the workouts table and empties the sets table. -/
theorem fullSync_replaces_tables_witness :
    (fullSync ⟨.netError, .netError,
        .ok [("workouts", [⟨1, 5⟩]), ("sets", [])], 999⟩ fullStart).1 = true ∧
    (fullSync ⟨.netError, .netError,
        .ok [("workouts", [⟨1, 5⟩]), ("sets", [])], 999⟩ fullStart).2.1.outbox =
      fullStart.outbox ∧
    tableGet (fullSync ⟨.netError, .netError,
        .ok [("workouts", [⟨1, 5⟩]), ("sets", [])], 999⟩ fullStart).2.1.tables
      "workouts" = [⟨1, 5⟩] ∧
    tableGet (fullSync ⟨.netError, .netError,
        .ok [("workouts", [⟨1, 5⟩]), ("sets", [])], 999⟩ fullStart).2.1.tables
      "sets" = [] := by
  obtain ⟨h1, _, h3, _, _, _, h7⟩ := fullSync_replaces_tables
    ⟨.netError, .netError, .ok [("workouts", [⟨1, 5⟩]), ("sets", [])], 999⟩
    fullStart [("workouts", [⟨1, 5⟩]), ("sets", [])] rfl rfl (by decide) (by decide)
  exact ⟨h1, h3, h7 ("workouts", [⟨1, 5⟩]) (by decide), h7 ("sets", []) (by decide)⟩

end GymLog
